import Mathlib

/-!
Shallow embedding of the mapreduce worker/controller handler logic from
`google/appengine/ext/mapreduce/handlers.py`, together with theorems that
settle the specification claims about it.

Machine conventions:
* timestamps are integers (seconds); `Option Int` models a nullable
  datetime field;
* the datastore entity for a shard is `ShardState`; the transient task
  payload is `TransientShardState`;
* fallible / exceptional control flow is explicit (`Option`, dedicated
  result types);
* the numeric knobs from `parameters.config` are fields of `Config`.
-/

namespace Mapreduce

/-- The `_TASK_DIRECTIVE` enum of `MapperWorkerCallbackHandler`. -/
inductive TaskDirective where
  | PROCEED_TASK
  | RETRY_TASK
  | RETRY_SLICE
  | DROP_TASK
  | RECOVER_SLICE
  | RETRY_SHARD
  | FAIL_TASK
  | ABORT_SHARD
deriving DecidableEq, Repr

/-- Result statuses used by `ShardState` / `MapreduceState`
(`RESULT_SUCCESS`, `RESULT_FAILED`, `RESULT_ABORTED`). -/
inductive ResultStatus where
  | SUCCESS
  | FAILED
  | ABORTED
deriving DecidableEq, Repr

/-- The fields of `model.ShardState` that the handler logic reads and
writes (spec section 3). -/
structure ShardState where
  shard_number : Nat
  active : Bool
  slice_id : Nat
  slice_start_time : Option Int
  slice_request_id : Option Nat
  retries : Nat
  slice_retries : Nat
  result_status : Option ResultStatus
  acquired_once : Bool
  input_finished : Bool
deriving DecidableEq, Repr

/-- An output writer instance, abstracted to the capability flags the
handler consults plus the identity data (`shard_number`, `attempt`,
whether it came from `_recover`) that distinguishes one instance from
another. -/
structure Writer where
  supports_slice_recovery : Bool
  supports_shard_retry : Bool
  shard_number : Nat
  attempt : Nat
  recovered : Bool
deriving DecidableEq, Repr

/-- `OutputWriter.create(mr_spec, shard_number, attempt)`: a fresh writer
instance for the given shard attempt. -/
def Writer.create (w : Writer) (shard_number attempt : Nat) : Writer :=
  { w with shard_number := shard_number, attempt := attempt, recovered := false }

/-- `OutputWriter._recover(mr_spec, shard_number, attempt)`: a recovery
writer instance for the given shard attempt. -/
def Writer.recover (w : Writer) (shard_number attempt : Nat) : Writer :=
  { w with shard_number := shard_number, attempt := attempt, recovered := true }

/-- The fields of `model.TransientShardState` (task payload) that the
handler logic consults. -/
structure TransientShardState where
  shard_id : Nat
  slice_id : Nat
  retries : Nat
  output_writer : Option Writer
deriving DecidableEq, Repr

/-- The numeric knobs of `parameters.config` used by the handlers. -/
structure Config where
  TASK_MAX_DATA_PROCESSING_ATTEMPTS : Nat
  SHARD_MAX_ATTEMPTS : Nat
  LEASE_DURATION_SEC : Int
  MAX_LEASE_DURATION_SEC : Int
deriving Repr

/-- `MapperWorkerCallbackHandler._wait_time(shard_state, secs, now)` for a
held lease starting at `start`: time to wait until `slice_start_time` is
`secs` ago from `now` (0 if no wait). -/
def waitTime (start : Int) (secs : Int) (now : Int) : Int :=
  if now - start < secs then secs - (now - start) else 0

/-- The pre-transaction validation prefix of
`MapperWorkerCallbackHandler._try_acquire_lease` (the drop/retry checks
on a missing / inactive / stale / ahead `shard_state`).  Returns `none`
when validation passes and control falls through to the lease logic. -/
def preValidate (shard_state : Option ShardState) (tstate : TransientShardState) :
    Option TaskDirective :=
  match shard_state with
  | none => some .DROP_TASK
  | some ss =>
    if ss.active = false then some .DROP_TASK
    else if tstate.retries < ss.retries then some .DROP_TASK
    else if ss.retries < tstate.retries then some .RETRY_TASK
    else if tstate.slice_id < ss.slice_id then some .DROP_TASK
    else if ss.slice_id < tstate.slice_id then some .RETRY_TASK
    else none

/-- The held-lease checks of `_try_acquire_lease` (the
`if shard_state.slice_start_time:` block): a lease younger than
`_LEASE_DURATION_SEC` forces RETRY_TASK, a lease younger than
`_MAX_LEASE_DURATION_SEC` whose old request has not observably ended
forces RETRY_TASK, otherwise control falls through to acquisition.
`oldRequestEnded` is the answer of `_has_old_request_ended` (the Logs
API liveness probe). -/
def leaseWaitCheck (cfg : Config) (ss : ShardState) (now : Int)
    (oldRequestEnded : Bool) : Option TaskDirective :=
  match ss.slice_start_time with
  | none => none
  | some t =>
    if 0 < waitTime t cfg.LEASE_DURATION_SEC now then some .RETRY_TASK
    else if waitTime t cfg.MAX_LEASE_DURATION_SEC now ≠ 0 ∧ oldRequestEnded = false then
      some .RETRY_TASK
    else none

/-- The state a successful lease acquisition writes: the observed state
with `slice_start_time := now`, `slice_request_id := reqId`,
`acquired_once := true` (`_try_acquire_lease`'s transaction body,
lines 333-335). -/
def ShardState.leased (ss : ShardState) (now : Int) (reqId : Nat) : ShardState :=
  { ss with slice_start_time := some now, slice_request_id := some reqId,
            acquired_once := true }

/-- The `_tx` transaction body of `_try_acquire_lease`: re-read the
shard state (`fresh`); if it is missing, roll back (modelled as a `none`
directive and no write); if it is still active with the `slice_id` and
`slice_start_time` observed before the transaction, write the observed
state with `slice_start_time := now`, `slice_request_id := reqId`,
`acquired_once := true` and return PROCEED_TASK; otherwise return
RETRY_TASK without writing. The second component is the state written
to the store (`none` when nothing is written). -/
def acquireTx (observed : ShardState) (fresh : Option ShardState)
    (now : Int) (reqId : Nat) : Option TaskDirective × Option ShardState :=
  match fresh with
  | none => (none, none)
  | some fs =>
    if fs.active = true ∧ fs.slice_id = observed.slice_id ∧
        fs.slice_start_time = observed.slice_start_time then
      (some .PROCEED_TASK, some (observed.leased now reqId))
    else
      (some .RETRY_TASK, none)

/-- `MapperWorkerCallbackHandler._try_acquire_lease` in full: the
validation prefix, then the held-lease checks, then the acquisition
transaction. `fresh` is the state the transaction re-reads from the
store; the second component of the result is the state written by the
transaction (`none` when nothing is written); a `none` directive is the
rolled-back (missing fresh state) path, which in the handler escapes as
an assertion failure. -/
def tryAcquireLease (cfg : Config) (shard_state : Option ShardState)
    (tstate : TransientShardState) (now : Int) (oldRequestEnded : Bool)
    (fresh : Option ShardState) (reqId : Nat) :
    Option TaskDirective × Option ShardState :=
  match shard_state with
  | none => (some .DROP_TASK, none)
  | some ss =>
    match preValidate (some ss) tstate with
    | some d => (some d, none)
    | none =>
      match leaseWaitCheck cfg ss now oldRequestEnded with
      | some d => (some d, none)
      | none => acquireTx ss fresh now reqId

/-- Modelled from the spec: `model.MapreduceControl` commands — the only
command is `ABORT` ("a single-field command record (e.g. ABORT)"). -/
inductive Command where
  | ABORT
deriving DecidableEq, Repr

/-- Modelled from the spec: `model.ShardState.set_for_failure` — "FAIL:
set shard result_status=FAILED, active=false"; a terminal shard holds no
lease (spec section 3 lease invariant). -/
def ShardState.setForFailure (ss : ShardState) : ShardState :=
  { ss with result_status := some .FAILED, active := false,
            slice_start_time := none, slice_request_id := none }

/-- Modelled from the spec: `model.ShardState.set_for_abort` — "ABORT:
sets result_status=ABORTED, active=false". -/
def ShardState.setForAbort (ss : ShardState) : ShardState :=
  { ss with result_status := some .ABORTED, active := false,
            slice_start_time := none, slice_request_id := none }

/-- Modelled from the spec: `model.ShardState.set_for_success` — the
worker marks the shard SUCCESS and inactive once its input is finished
and outputs are finalized (spec section 4.2). -/
def ShardState.setForSuccess (ss : ShardState) : ShardState :=
  { ss with result_status := some .SUCCESS, active := false,
            slice_start_time := none, slice_request_id := none }

/-- Modelled from the spec: `model.ShardState.set_input_finished` — "On
exhaustion of input, mark shard input-finished (checked again next slice
to trigger finalize)". -/
def ShardState.setInputFinished (ss : ShardState) : ShardState :=
  { ss with input_finished := true }

/-- Modelled from the spec: `model.ShardState.advance_for_next_slice` —
"PROCEED: advance slice_id by 1, reset slice_retries"; a recovery slice
"advances the logical slice counter by 2 (not 1)"; the lease fields are
released for the next slice (spec section 3 lease invariant, and
`acquired_once` distinguishes a first delivery of a slice from a
redelivery). -/
def ShardState.advanceForNextSlice (ss : ShardState) (recovery_slice : Bool) :
    ShardState :=
  { ss with slice_id := ss.slice_id + (if recovery_slice then 2 else 1),
            slice_retries := 0, slice_start_time := none,
            slice_request_id := none, acquired_once := false }

/-- Modelled from the spec: `model.ShardState.reset_for_retry` — "Else
reset shard to slice 0 with a fresh output-writer instance": a new shard
attempt starts at slice 0 with cleared slice/lease bookkeeping and the
shard-level `retries` counter incremented. -/
def ShardState.resetForRetry (ss : ShardState) : ShardState :=
  { ss with retries := ss.retries + 1, active := true, result_status := none,
            slice_id := 0, slice_retries := 0, slice_start_time := none,
            slice_request_id := none, acquired_once := false,
            input_finished := false }

/-- Modelled from the spec: `model.TransientShardState.advance_for_next_slice`
— the task payload for the next slice carries the advanced slice id
(by 2 for a recovery slice, spec section 4.3). -/
def TransientShardState.advanceForNextSlice (ts : TransientShardState)
    (recovery_slice : Bool) : TransientShardState :=
  { ts with slice_id := ts.slice_id + (if recovery_slice then 2 else 1) }

/-- Modelled from the spec: `model.TransientShardState.reset_for_retry` —
the payload for a new shard attempt restarts at slice 0 with the given
fresh output writer and the next retry count. -/
def TransientShardState.resetForRetry (ts : TransientShardState)
    (w : Option Writer) : TransientShardState :=
  { ts with slice_id := 0, retries := ts.retries + 1, output_writer := w }

/-- `MapperWorkerCallbackHandler._try_free_lease`: a transaction that
re-reads the shard state from the store and, if it exists and is still
active, clears `slice_start_time`/`slice_request_id` (incrementing
`slice_retries` when `slice_retry` is set). The argument is the current
store content; the result is the store content afterwards. -/
def tryFreeLease (store : Option ShardState) (slice_retry : Bool) :
    Option ShardState :=
  match store with
  | none => none
  | some fs =>
    if fs.active = true then
      some { fs with slice_start_time := none, slice_request_id := none,
                     slice_retries :=
                       fs.slice_retries + (if slice_retry then 1 else 0) }
    else some fs

/-- `MapperWorkerCallbackHandler._attempt_slice_retry`: RETRY_SLICE
(after freeing the lease with a `slice_retries` increment) while
`slice_retries + 1 < TASK_MAX_DATA_PROCESSING_ATTEMPTS`, else
RETRY_SHARD.  The second component is the store content after the
free-lease transaction. -/
def attemptSliceRetry (cfg : Config) (ss : ShardState)
    (store : Option ShardState) : TaskDirective × Option ShardState :=
  if ss.slice_retries + 1 < cfg.TASK_MAX_DATA_PROCESSING_ATTEMPTS then
    (.RETRY_SLICE, tryFreeLease store true)
  else
    (.RETRY_SHARD, store)

/-- `MapperWorkerCallbackHandler._attempt_shard_retry`: FAIL_TASK when
`retries + 1 >= SHARD_MAX_ATTEMPTS` or the output writer does not
support shard retry; otherwise reset the shard and payload for a new
attempt with a freshly created output writer and return RETRY_SHARD. -/
def attemptShardRetry (cfg : Config) (ss : ShardState)
    (ts : TransientShardState) :
    TaskDirective × ShardState × TransientShardState :=
  let shard_attempts := ss.retries + 1
  if cfg.SHARD_MAX_ATTEMPTS ≤ shard_attempts then
    (.FAIL_TASK, ss, ts)
  else if ts.output_writer.any (fun w => w.supports_shard_retry = false) then
    (.FAIL_TASK, ss, ts)
  else
    (.RETRY_SHARD, ss.resetForRetry,
     ts.resetForRetry
       (ts.output_writer.map
         (fun w => w.create ss.shard_number (shard_attempts + 1))))

/-- `MapperWorkerCallbackHandler._attempt_slice_recovery`: when the
payload carries an output writer that supports slice recovery, replace
it with the writer instance produced by `_recover` and dedicate the
slice to recovery (RECOVER_SLICE); otherwise PROCEED_TASK. -/
def attemptSliceRecovery (ss : ShardState) (ts : TransientShardState) :
    TaskDirective × TransientShardState :=
  match ts.output_writer with
  | none => (.PROCEED_TASK, ts)
  | some w =>
    if w.supports_slice_recovery = false then (.PROCEED_TASK, ts)
    else
      (.RECOVER_SLICE,
       { ts with output_writer := some (w.recover ss.shard_number (ss.retries + 1)) })

/-- `MapperWorkerCallbackHandler._set_state`: resolve the directive
computed by `handle` into the final directive, mutating the in-memory
shard state / payload and (through `_try_free_lease` on the
RETRY_SLICE path) the store. -/
def setState (cfg : Config) (ss : ShardState) (ts : TransientShardState)
    (store : Option ShardState) (d : TaskDirective) :
    TaskDirective × ShardState × TransientShardState × Option ShardState :=
  if d = .RETRY_TASK ∨ d = .DROP_TASK then (d, ss, ts, store)
  else if d = .ABORT_SHARD then (d, ss.setForAbort, ts, store)
  else if d = .PROCEED_TASK then
    (d, ss.advanceForNextSlice false, ts.advanceForNextSlice false, store)
  else if d = .RECOVER_SLICE then
    (d, ss.advanceForNextSlice true, ts.advanceForNextSlice true, store)
  else
    let step1 := if d = .RETRY_SLICE then attemptSliceRetry cfg ss store
                 else (d, store)
    let step2 := if step1.1 = .RETRY_SHARD then attemptShardRetry cfg ss ts
                 else (step1.1, ss, ts)
    let ssFinal := if step2.1 = .FAIL_TASK then step2.2.1.setForFailure
                   else step2.2.1
    (step2.1, ssFinal, step2.2.2, step1.2)

/-- The effect of `_save_state_and_schedule_next` on the store and the
task queue: nothing for DROP_TASK, an HTTP task-retry for
RETRY_SLICE/RETRY_TASK, otherwise a transactional write of the
in-memory state (skipped when the freshly re-read store state is
missing or inactive) together with a transactionally scheduled next
worker task when the shard remains active. -/
inductive SaveAction where
  | noop
  | taskRetry
  | write (st : ShardState) (scheduled : Bool)
deriving DecidableEq, Repr

/-- Whether `_save_state_and_schedule_next` builds a follow-up worker
task for this directive (RETRY_SHARD / RECOVER_SLICE / PROCEED_TASK);
for ABORT_SHARD and FAIL_TASK the task is `None`. -/
def hasNextTask (d : TaskDirective) : Bool :=
  d = .RETRY_SHARD ∨ d = .RECOVER_SLICE ∨ d = .PROCEED_TASK

/-- `MapperWorkerCallbackHandler._save_state_and_schedule_next`,
abstracted to its observable action. `ss` is the in-memory shard state
after `_set_state`; `storeFresh` is the state the transaction re-reads
from the store. -/
def saveState (d : TaskDirective) (ss : ShardState)
    (storeFresh : Option ShardState) : SaveAction :=
  if d = .DROP_TASK then .noop
  else if d = .RETRY_SLICE ∨ d = .RETRY_TASK then .taskRetry
  else
    match storeFresh with
    | none => .noop
    | some fs =>
      if fs.active = false then .noop
      else .write ss (ss.active ∧ hasNextTask d)

/-- What the data-processing part of a slice
(`_process_inputs` / `_process_datum` / the user handler / `ctx.flush`)
does, classified the way `handle`'s `try`/`except` block classifies it:
normal completion (with whether the input was exhausted), an
`errors.FailJobError`, or any other exception. -/
inductive SliceOutcome where
  | ok (lastSlice : Bool)
  | failJob
  | otherError
deriving DecidableEq, Repr

/-- The observable result of one worker task delivery: the directive
`handle` handed to `__return`, the final directive after `_set_state`,
the in-memory shard state and payload at the end, the store content
after the lease / free-lease transactions, whether the data-processing
loop was entered, and the action of
`_save_state_and_schedule_next`. -/
structure WorkerRun where
  rawDirective : TaskDirective
  directive : TaskDirective
  ss : Option ShardState
  ts : TransientShardState
  store : Option ShardState
  processed : Bool
  save : SaveAction
deriving DecidableEq, Repr

/-- `MapperWorkerCallbackHandler.__return`: `_set_state` followed by
`_save_state_and_schedule_next`. -/
def workerReturn (cfg : Config) (ss : ShardState) (ts : TransientShardState)
    (store : Option ShardState) (d : TaskDirective) (processed : Bool) :
    WorkerRun :=
  let r := setState cfg ss ts store d
  { rawDirective := d, directive := r.1, ss := some r.2.1, ts := r.2.2.1,
    store := r.2.2.2, processed := processed,
    save := saveState r.1 r.2.1 r.2.2.2 }

/-- `MapperWorkerCallbackHandler.handle` for one task delivery, under
sequential store semantics (no concurrent writer between the initial
read and the transactions, so the state the lease transaction re-reads
is the observed one). `control` is the `MapreduceControl` record read
alongside the shard state; `outcome` classifies what the
data-processing part does if it is reached. The result is `none` when
the handler escapes with an exception (the rolled-back lease
transaction's assertion failure). -/
def workerHandle (cfg : Config) (shard_state : Option ShardState)
    (control : Option Command) (ts : TransientShardState) (now : Int)
    (oldRequestEnded : Bool) (reqId : Nat) (outcome : SliceOutcome) :
    Option WorkerRun :=
  match shard_state with
  | none =>
    -- `_try_acquire_lease` drops the task; `_save_state_and_schedule_next`
    -- does nothing for DROP_TASK.
    some { rawDirective := .DROP_TASK, directive := .DROP_TASK, ss := none,
           ts := ts, store := none, processed := false, save := .noop }
  | some ss0 =>
    let is_this_a_retry := ss0.acquired_once
    match tryAcquireLease cfg (some ss0) ts now oldRequestEnded (some ss0) reqId with
    | (none, _) => none
    | (some d, none) =>
      -- no lease write: d is RETRY_TASK or DROP_TASK
      some (workerReturn cfg ss0 ts (some ss0) d false)
    | (some _, some ssw) =>
      -- lease acquired (PROCEED_TASK); in-memory state and store both
      -- hold the written state `ssw`
      if control = some Command.ABORT then
        some (workerReturn cfg ssw ts (some ssw) .ABORT_SHARD false)
      else if is_this_a_retry = true ∧
          cfg.TASK_MAX_DATA_PROCESSING_ATTEMPTS ≤ 1 then
        some (workerReturn cfg ssw ts (some ssw) .RETRY_SHARD false)
      else if ssw.input_finished = true then
        -- finalize the output writer, mark success, return with
        -- PROCEED_TASK still the directive
        some (workerReturn cfg ssw.setForSuccess ts (some ssw) .PROCEED_TASK false)
      else
        let rec1 := if is_this_a_retry = true then attemptSliceRecovery ssw ts
                    else (.PROCEED_TASK, ts)
        if rec1.1 = .RECOVER_SLICE then
          some (workerReturn cfg ssw rec1.2 (some ssw) .RECOVER_SLICE false)
        else
          match outcome with
          | .ok lastSlice =>
            let ss2 := if lastSlice then ssw.setInputFinished else ssw
            some (workerReturn cfg ss2 rec1.2 (some ssw) .PROCEED_TASK true)
          | .failJob =>
            some (workerReturn cfg ssw rec1.2 (some ssw) .FAIL_TASK true)
          | .otherError =>
            some (workerReturn cfg ssw rec1.2 (some ssw) .RETRY_SLICE true)

/-- The aggregate fields of `model.MapreduceState` that the controller
reads and writes. -/
structure MapreduceState where
  active : Bool
  active_shards : Nat
  failed_shards : Nat
  aborted_shards : Nat
  result_status : Option ResultStatus
deriving DecidableEq, Repr

/-- The counters computed by the shard-state loop of
`ControllerCallbackHandler._update_state_from_shard_states`: the total
number of shard states seen, and how many are active / aborted /
failed. -/
structure ShardTally where
  total : Nat
  activeN : Nat
  aborted : Nat
  failed : Nat
deriving DecidableEq, Repr

/-- The `for s in shard_states` loop of
`_update_state_from_shard_states`: count every shard state, the active
ones, and tally `result_status` (ABORTED first, `elif` FAILED). -/
def tallyShards : List ShardState → ShardTally
  | [] => ⟨0, 0, 0, 0⟩
  | s :: rest =>
    let t := tallyShards rest
    { total := t.total + 1,
      activeN := t.activeN + (if s.active then 1 else 0),
      aborted :=
        t.aborted + (if s.result_status = some .ABORTED then 1 else 0),
      failed :=
        t.failed +
          (if s.result_status ≠ some .ABORTED ∧
              s.result_status = some .FAILED then 1 else 0) }

/-- `ControllerCallbackHandler._finalize_outputs`: the output writer's
`finalize_job` hook is invoked exactly when an output writer class is
configured and the job's `result_status` is SUCCESS. -/
def finalizeOutputsHookRuns (hasWriterClass : Bool) (st : MapreduceState) :
    Bool :=
  hasWriterClass && (st.result_status = some ResultStatus.SUCCESS)

/-- The observable result of one controller poll
(`_update_state_from_shard_states`): the updated job state, whether an
abort command was issued, whether the writer-level `finalize_job` hook
ran, whether `_finalize_job` was invoked, and whether the still-active
path wrote the state back. -/
structure ControllerUpdate where
  state : MapreduceState
  abortIssued : Bool
  finalizeOutputsHook : Bool
  finalized : Bool
  statePut : Bool
deriving DecidableEq, Repr

/-- `ControllerCallbackHandler._update_state_from_shard_states`:
recompute the shard tallies, issue an abort command on a shard-count
mismatch or (absent a control record) on any failed/aborted shard, set
`active := bool(active_shards)`, and either compute the terminal
`result_status` and finalize (inactive) or transactionally persist the
refreshed aggregate state (still active; skipped when the freshly
re-read store state is no longer active, `storeActive`). -/
def updateStateFromShardStates (st : MapreduceState)
    (shards : List ShardState) (control : Option Command) (expected : Nat)
    (hasWriterClass : Bool) (storeActive : Bool) : ControllerUpdate :=
  let t := tallyShards shards
  let abortIssued :=
    t.total ≠ expected ∨
      (control = none ∧ (t.failed ≠ 0 ∨ t.aborted ≠ 0))
  let st1 := { st with active_shards := t.activeN,
                       aborted_shards := t.aborted,
                       failed_shards := t.failed,
                       active := t.activeN ≠ 0 }
  if st1.active = false then
    let status :=
      if t.failed ≠ 0 ∨ t.total = 0 then ResultStatus.FAILED
      else if t.aborted ≠ 0 then ResultStatus.ABORTED
      else ResultStatus.SUCCESS
    let st2 := { st1 with result_status := some status }
    { state := st2, abortIssued := abortIssued,
      finalizeOutputsHook := finalizeOutputsHookRuns hasWriterClass st2,
      finalized := true, statePut := false }
  else
    { state := st1, abortIssued := abortIssued,
      finalizeOutputsHook := false, finalized := false,
      statePut := storeActive }

/-- `ControllerCallbackHandler._finalize_job`'s `_put_state`
transaction: re-read the job state from the store (`storeState`); if it
is no longer active, write nothing and enqueue nothing; otherwise
persist `mapreduce_state` and enqueue the done-callback task (when one
is configured, `hasDoneCallback`). Returns the store content afterwards
and whether the done task was enqueued by this invocation. -/
def finalizeJob (storeState : MapreduceState) (mapreduce_state : MapreduceState)
    (hasDoneCallback : Bool) : MapreduceState × Bool :=
  if storeState.active = true then (mapreduce_state, hasDoneCallback)
  else (storeState, false)

/-- What invoking `getattr(hooks, method)(task, queue_name,
transactional)` would do: run to completion, or raise
`NotImplementedError`. -/
inductive HookOutcome where
  | handled
  | notImplemented
deriving DecidableEq, Repr

/-- `_run_task_hook(hooks, method, task, queue_name, transactional)`:
the result is `Except.error` when the function raises (a named task
added transactionally), otherwise `Except.ok` of its return value; the
second component records whether the hook method was invoked at all. -/
def runTaskHook (hooks : Option HookOutcome) (taskName : Option String)
    (transactional : Bool) : Except String Bool × Bool :=
  if taskName ≠ none ∧ transactional = true then
    (Except.error "Named tasks cannot be added transactionally.", false)
  else
    match hooks with
    | none => (Except.ok false, false)
    | some .handled => (Except.ok true, true)
    | some .notImplemented => (Except.ok false, true)

/-- What `KickOffJobHandler._schedule_shards` does when invoked:
completes normally, or raises `errors.FailJobError`. -/
inductive ScheduleShardsOutcome where
  | ok
  | failJob
deriving DecidableEq, Repr

/-- The observable result of `KickOffJobHandler.handle`: the persisted
job state afterwards, whether an abort control record was issued,
whether `_finalize_job` was invoked, whether the kickoff completed by
leaving the job running (shards scheduled and the controller task
enqueued), and whether the handler escaped with an exception (missing
state raises `ValueError` so the delivery layer retries). -/
structure KickoffRun where
  state : Option MapreduceState
  abortIssued : Bool
  finalized : Bool
  jobRunning : Bool
  raised : Bool
deriving DecidableEq, Repr

/-- `KickOffJobHandler.handle` (with `_drop_gracefully` inlined on the
`FailJobError` path), under sequential store semantics: a missing job
state raises; an inactive one drops the task; empty input finalizes the
job as SUCCESS; a `FailJobError` from `_schedule_shards` issues an
abort command, marks the job FAILED, and finalizes it without
rescheduling the controller; otherwise the shards are scheduled and the
controller task is enqueued. -/
def kickoffHandle (state : Option MapreduceState) (readersEmpty : Bool)
    (sched : ScheduleShardsOutcome) : KickoffRun :=
  match state with
  | none =>
    { state := none, abortIssued := false, finalized := false,
      jobRunning := false, raised := true }
  | some st =>
    if st.active = false then
      { state := some st, abortIssued := false, finalized := false,
        jobRunning := false, raised := false }
    else if readersEmpty then
      { state := some { st with active := false,
                                result_status := some .SUCCESS },
        abortIssued := false, finalized := true, jobRunning := false,
        raised := false }
    else
      match sched with
      | .failJob =>
        { state := some { st with active := false,
                                  result_status := some .FAILED },
          abortIssued := true, finalized := true, jobRunning := false,
          raised := false }
      | .ok =>
        { state := some st, abortIssued := false, finalized := false,
          jobRunning := true, raised := false }

/-- One concurrent duplicate delivery of the worker task for the same
(shard, slice, retries) tuple: the shard-state snapshot it observed when
it started, its clock, its request id, and its liveness-probe
answer. -/
structure Delivery where
  observed : ShardState
  now : Int
  reqId : Nat
  oldRequestEnded : Bool
deriving DecidableEq, Repr

/-- One delivery's `_try_acquire_lease` against the current store
content `cur` (the state its transaction re-reads), using the possibly
stale snapshot the delivery observed.  Returns the directive and the
store content afterwards. -/
def leaseStep (cfg : Config) (tstate : TransientShardState)
    (cur : ShardState) (d : Delivery) : Option TaskDirective × ShardState :=
  match tryAcquireLease cfg (some d.observed) tstate d.now d.oldRequestEnded
      (some cur) d.reqId with
  | (dir, some w) => (dir, w)
  | (dir, none) => (dir, cur)

/-- Run a sequence of duplicate deliveries one after another (the store
serializes their acquisition transactions), threading the store
content.  Returns each delivery's directive and the final store
content. -/
def runDeliveries (cfg : Config) (tstate : TransientShardState)
    (cur : ShardState) :
    List Delivery → List (Option TaskDirective) × ShardState
  | [] => ([], cur)
  | d :: ds =>
    let r := leaseStep cfg tstate cur d
    let rest := runDeliveries cfg tstate r.2 ds
    (r.1 :: rest.1, rest.2)

/-- Iterate shard attempts of a shard whose handler always fails: each
attempt ends in `_attempt_slice_retry` exhausting the slice budget and
handing RETRY_SHARD to `_attempt_shard_retry`; a RETRY_SHARD directive
starts the next attempt from the reset states, and a FAIL_TASK
directive is followed by `set_for_failure` (`_set_state`).  Returns the
sequence of shard-attempt directives and the final shard state. -/
def runFailingShard (cfg : Config) :
    Nat → ShardState → TransientShardState → List TaskDirective × ShardState
  | 0, ss, _ => ([], ss)
  | fuel + 1, ss, ts =>
    let r := attemptShardRetry cfg ss ts
    if r.1 = .RETRY_SHARD then
      let rest := runFailingShard cfg fuel r.2.1 r.2.2
      (.RETRY_SHARD :: rest.1, rest.2)
    else
      ([r.1], if r.1 = .FAIL_TASK then r.2.1.setForFailure else r.2.1)

/-- Sample configuration used by the concrete witnesses below. -/
def sampleCfg : Config :=
  { TASK_MAX_DATA_PROCESSING_ATTEMPTS := 11, SHARD_MAX_ATTEMPTS := 4,
    LEASE_DURATION_SEC := 30, MAX_LEASE_DURATION_SEC := 600 }

/-- Sample output writer supporting both recovery capabilities. -/
def sampleWriter : Writer :=
  { supports_slice_recovery := true, supports_shard_retry := true,
    shard_number := 0, attempt := 1, recovered := false }

/-- Sample shard state: active, at slice 0 of attempt 0, no lease
outstanding. -/
def idleShard : ShardState :=
  { shard_number := 0, active := true, slice_id := 0,
    slice_start_time := none, slice_request_id := none, retries := 0,
    slice_retries := 0, result_status := none, acquired_once := false,
    input_finished := false }

/-- Sample task payload matching `idleShard` (slice 0, attempt 0). -/
def sampleTs : TransientShardState :=
  { shard_id := 7, slice_id := 0, retries := 0,
    output_writer := some sampleWriter }

/-- Sample running job state. -/
def runningJob : MapreduceState :=
  { active := true, active_shards := 2, failed_shards := 0,
    aborted_shards := 0, result_status := none }

/-- Sample terminal job state (the in-memory state a controller computes
before finalizing). -/
def doneJob : MapreduceState :=
  { active := false, active_shards := 0, failed_shards := 0,
    aborted_shards := 0, result_status := some .SUCCESS }

/-- Claim C2: the pre-lease validation of `_try_acquire_lease` resolves,
in order and without writing any shard state: DROP_TASK for a missing
shard state; DROP_TASK for an inactive one; DROP_TASK when the stored
retry count exceeds the payload's; RETRY_TASK when it is behind it;
DROP_TASK when the stored slice id exceeds the payload's; RETRY_TASK
when it is behind it (retry counts are compared before slice ids: the
retry-count cases need no assumption on the slice ids). -/
theorem preLease_validation_order (cfg : Config) (ss : ShardState)
    (ts : TransientShardState) (now : Int) (old : Bool)
    (fresh : Option ShardState) (reqId : Nat) :
    tryAcquireLease cfg none ts now old fresh reqId
        = (some .DROP_TASK, none) ∧
    (ss.active = false →
      tryAcquireLease cfg (some ss) ts now old fresh reqId
          = (some .DROP_TASK, none)) ∧
    (ss.active = true → ts.retries < ss.retries →
      tryAcquireLease cfg (some ss) ts now old fresh reqId
          = (some .DROP_TASK, none)) ∧
    (ss.active = true → ss.retries < ts.retries →
      tryAcquireLease cfg (some ss) ts now old fresh reqId
          = (some .RETRY_TASK, none)) ∧
    (ss.active = true → ss.retries = ts.retries → ts.slice_id < ss.slice_id →
      tryAcquireLease cfg (some ss) ts now old fresh reqId
          = (some .DROP_TASK, none)) ∧
    (ss.active = true → ss.retries = ts.retries → ss.slice_id < ts.slice_id →
      tryAcquireLease cfg (some ss) ts now old fresh reqId
          = (some .RETRY_TASK, none)) := by
  refine ⟨rfl, ?_, ?_, ?_, ?_, ?_⟩
  · intro h
    have hp : preValidate (some ss) ts = some .DROP_TASK := by
      simp [preValidate, h]
    simp [tryAcquireLease, hp]
  · intro h1 h2
    have hp : preValidate (some ss) ts = some .DROP_TASK := by
      simp [preValidate, h1, h2]
    simp [tryAcquireLease, hp]
  · intro h1 h2
    have hp : preValidate (some ss) ts = some .RETRY_TASK := by
      simp [preValidate, h1, h2, Nat.lt_asymm h2]
    simp [tryAcquireLease, hp]
  · intro h1 h2 h3
    have hp : preValidate (some ss) ts = some .DROP_TASK := by
      simp [preValidate, h1, h2, h3]
    simp [tryAcquireLease, hp]
  · intro h1 h2 h3
    have hp : preValidate (some ss) ts = some .RETRY_TASK := by
      simp [preValidate, h1, h2, h3, Nat.lt_asymm h3]
    simp [tryAcquireLease, hp]

/-- Claim C2, concrete instances: a stale-retry delivery is dropped, a
lagging store forces a task retry, and a stale-slice delivery is
dropped, all without a write. -/
theorem preLease_validation_order_witness :
    tryAcquireLease sampleCfg (some { idleShard with retries := 1 })
        sampleTs 0 false none 0 = (some .DROP_TASK, none) ∧
    tryAcquireLease sampleCfg (some idleShard)
        { sampleTs with retries := 2 } 0 false none 0
        = (some .RETRY_TASK, none) ∧
    tryAcquireLease sampleCfg (some { idleShard with slice_id := 6 })
        { sampleTs with slice_id := 5 } 0 false none 0
        = (some .DROP_TASK, none) := by
  refine ⟨?_, ?_, ?_⟩
  · exact (preLease_validation_order sampleCfg { idleShard with retries := 1 }
      sampleTs 0 false none 0).2.2.1 (by decide) (by decide)
  · exact (preLease_validation_order sampleCfg idleShard
      { sampleTs with retries := 2 } 0 false none 0).2.2.2.1 (by decide) (by decide)
  · exact (preLease_validation_order sampleCfg { idleShard with slice_id := 6 }
      { sampleTs with slice_id := 5 } 0 false none 0).2.2.2.2.1 (by decide)
      (by decide) (by decide)

/-- Claim C10: `_run_task_hook` raises whenever the task has a non-None
name and `transactional` is true, before any hook method is invoked;
otherwise it returns False when `hooks` is None or the hook method
raises NotImplementedError, and True when the hook handles the
method. -/
theorem runTaskHook_spec (hooks : Option HookOutcome)
    (taskName : Option String) (transactional : Bool) :
    ((taskName ≠ none ∧ transactional = true) →
      runTaskHook hooks taskName transactional
        = (Except.error "Named tasks cannot be added transactionally.",
           false)) ∧
    (¬(taskName ≠ none ∧ transactional = true) →
      (hooks = none →
        runTaskHook hooks taskName transactional = (Except.ok false, false)) ∧
      (hooks = some .notImplemented →
        runTaskHook hooks taskName transactional = (Except.ok false, true)) ∧
      (hooks = some .handled →
        runTaskHook hooks taskName transactional = (Except.ok true, true))) := by
  constructor
  · intro h
    simp [runTaskHook, h]
  · intro h
    refine ⟨?_, ?_, ?_⟩ <;> intro hh <;> simp [runTaskHook, h, hh]

/-- Claim C10, concrete instances: a named transactional task raises
even when the hook would handle the method (and the hook is not
invoked); an unnamed non-transactional task with no hooks returns
False. -/
theorem runTaskHook_spec_witness :
    runTaskHook (some .handled) (some "t") true
      = (Except.error "Named tasks cannot be added transactionally.",
         false) ∧
    runTaskHook none none false = (Except.ok false, false) := by
  constructor
  · exact (runTaskHook_spec (some .handled) (some "t") true).1
      ⟨by decide, rfl⟩
  · exact ((runTaskHook_spec none none false).2 (by simp)).1 rfl

/-- Claim C7: `_finalize_job` re-reads the job state inside its
transaction and, when that state is already inactive, neither writes
nor enqueues the done-callback task; hence for a terminal in-memory
state, a second invocation leaves the persisted state identical and
enqueues nothing, so the done task is enqueued at most once across both
invocations. -/
theorem finalizeJob_idempotent (store st : MapreduceState) (cb : Bool)
    (hterm : st.active = false) :
    (store.active = false → finalizeJob store st cb = (store, false)) ∧
    (finalizeJob (finalizeJob store st cb).1 st cb).1
        = (finalizeJob store st cb).1 ∧
    (finalizeJob (finalizeJob store st cb).1 st cb).2 = false := by
  by_cases h : store.active = true
  · refine ⟨fun hc => by simp [h] at hc, ?_, ?_⟩ <;>
      simp [finalizeJob, h, hterm]
  · have h0 : store.active = false := by
      cases hact : store.active
      · rfl
      · exact absurd hact h
    refine ⟨fun _ => ?_, ?_, ?_⟩ <;> simp [finalizeJob, h0]

/-- Claim C7, concrete instance: finalizing a terminal SUCCESS state
twice over an initially active store persists that state once, and only
the first invocation enqueues the done task. -/
theorem finalizeJob_idempotent_witness :
    finalizeJob runningJob doneJob true = (doneJob, true) ∧
    (finalizeJob (finalizeJob runningJob doneJob true).1 doneJob true).1
        = (finalizeJob runningJob doneJob true).1 ∧
    (finalizeJob (finalizeJob runningJob doneJob true).1 doneJob true).2
        = false := by
  have h := finalizeJob_idempotent runningJob doneJob true (by decide)
  exact ⟨by decide, h.2.1, h.2.2⟩

/-- The shard-state loop counts: total is the list length, aborted and
failed count the respective `result_status` values. -/
theorem tallyShards_fields (shards : List ShardState) :
    (tallyShards shards).total = shards.length ∧
    (tallyShards shards).aborted
        = shards.countP (fun s => decide (s.result_status = some ResultStatus.ABORTED)) ∧
    (tallyShards shards).failed
        = shards.countP (fun s => decide (s.result_status = some ResultStatus.FAILED)) := by
  induction shards with
  | nil => simp [tallyShards]
  | cons s rest ih =>
    obtain ⟨h1, h2, h3⟩ := ih
    refine ⟨by simp [tallyShards, h1], by simp [tallyShards, List.countP_cons, h2], ?_⟩
    by_cases hs : s.result_status = some ResultStatus.FAILED
    · simp [tallyShards, List.countP_cons, h3, hs]
    · simp [tallyShards, List.countP_cons, h3, hs]

/-- Claim C6: the controller's recompute sets
`active = (active_shards > 0)`; when the job thereby becomes inactive it
is finalized with `result_status` FAILED if any shard failed or no shard
states were found, else ABORTED if any shard aborted, else SUCCESS; and
the writer-level `finalize_job` hook runs only when the result is
SUCCESS. -/
theorem controller_recompute (st : MapreduceState) (shards : List ShardState)
    (control : Option Command) (expected : Nat) (hasWriterClass : Bool)
    (storeActive : Bool) :
    ∀ u, u = updateStateFromShardStates st shards control expected
               hasWriterClass storeActive →
    (u.state.active = true ↔ u.state.active_shards ≠ 0) ∧
    (u.state.active = false →
      u.finalized = true ∧
      u.state.result_status =
        some (if shards.countP
                  (fun s => decide (s.result_status = some ResultStatus.FAILED)) ≠ 0 ∨
                 shards.length = 0 then ResultStatus.FAILED
              else if shards.countP
                  (fun s => decide (s.result_status = some ResultStatus.ABORTED)) ≠ 0
                then ResultStatus.ABORTED
              else ResultStatus.SUCCESS)) ∧
    (u.finalizeOutputsHook = true →
      u.state.result_status = some ResultStatus.SUCCESS) := by
  intro u hu
  subst hu
  obtain ⟨ht, ha, hf⟩ := tallyShards_fields shards
  by_cases hz : (tallyShards shards).activeN = 0
  · refine ⟨?_, ?_, ?_⟩
    · simp [updateStateFromShardStates, hz]
    · intro _
      refine ⟨by simp [updateStateFromShardStates, hz], ?_⟩
      simp only [updateStateFromShardStates, hz]
      simp [← ht, ← ha, ← hf]
    · intro hhook
      simp [updateStateFromShardStates, hz, finalizeOutputsHookRuns] at hhook ⊢
      exact hhook.2
  · refine ⟨?_, ?_, ?_⟩
    · simp [updateStateFromShardStates, hz]
    · intro hact
      simp [updateStateFromShardStates, hz] at hact
    · intro hhook
      simp [updateStateFromShardStates, hz] at hhook

/-- Claim C6, concrete instance: one shard finished FAILED, none
active — the job becomes inactive and is finalized with result
FAILED. -/
theorem controller_recompute_witness :
    (updateStateFromShardStates runningJob [idleShard.setForFailure]
        none 1 true false).state.active = false ∧
    (updateStateFromShardStates runningJob [idleShard.setForFailure]
        none 1 true false).finalized = true ∧
    (updateStateFromShardStates runningJob [idleShard.setForFailure]
        none 1 true false).state.result_status
        = some ResultStatus.FAILED := by
  have h := controller_recompute runningJob [idleShard.setForFailure]
      none 1 true false
      (updateStateFromShardStates runningJob [idleShard.setForFailure]
        none 1 true false) rfl
  have hact : (updateStateFromShardStates runningJob [idleShard.setForFailure]
      none 1 true false).state.active = false := by decide
  obtain ⟨hfin, hres⟩ := h.2.1 hact
  exact ⟨hact, hfin, by rw [hres]; decide⟩

/-- Claim C5: on a slice failure with
`slice_retries + 1 < TASK_MAX_DATA_PROCESSING_ATTEMPTS`, `_set_state`
resolves RETRY_SLICE to RETRY_SLICE and releases the lease through
`_try_free_lease`, which on a still-active fresh state clears
`slice_start_time`/`slice_request_id` and increments `slice_retries`;
with the budget exhausted, `_attempt_slice_retry` hands RETRY_SHARD to
`_attempt_shard_retry`, whose decision becomes the directive. -/
theorem slice_retry_budget (cfg : Config) (ss : ShardState)
    (ts : TransientShardState) (store : Option ShardState) :
    (ss.slice_retries + 1 < cfg.TASK_MAX_DATA_PROCESSING_ATTEMPTS →
      setState cfg ss ts store .RETRY_SLICE
          = (.RETRY_SLICE, ss, ts, tryFreeLease store true) ∧
      ∀ fs, store = some fs → fs.active = true →
        tryFreeLease store true
            = some { fs with slice_start_time := none,
                             slice_request_id := none,
                             slice_retries := fs.slice_retries + 1 }) ∧
    (cfg.TASK_MAX_DATA_PROCESSING_ATTEMPTS ≤ ss.slice_retries + 1 →
      attemptSliceRetry cfg ss store = (.RETRY_SHARD, store) ∧
      (setState cfg ss ts store .RETRY_SLICE).1
          = (attemptShardRetry cfg ss ts).1 ∧
      (setState cfg ss ts store .RETRY_SLICE).2.2.2 = store) := by
  constructor
  · intro h
    constructor
    · simp [setState, attemptSliceRetry, h]
    · intro fs hst hact
      subst hst
      simp [tryFreeLease, hact]
  · intro h
    have hn : ¬ ss.slice_retries + 1 < cfg.TASK_MAX_DATA_PROCESSING_ATTEMPTS :=
      not_lt.mpr h
    refine ⟨by simp [attemptSliceRetry, hn], ?_, ?_⟩ <;>
      cases hA : attemptShardRetry cfg ss ts with
      | mk d r =>
        by_cases hd : d = TaskDirective.FAIL_TASK <;>
          simp [setState, attemptSliceRetry, hn, hA, hd]

/-- Claim C5, concrete instances: a failing slice with budget remaining
retries the slice and frees the lease with `slice_retries` incremented;
one with the budget exhausted goes to the shard-retry decision. -/
theorem slice_retry_budget_witness :
    setState sampleCfg idleShard sampleTs
        (some { idleShard with slice_start_time := some 0 }) .RETRY_SLICE
      = (.RETRY_SLICE, idleShard, sampleTs,
         some { idleShard with slice_retries := 1 }) ∧
    (setState sampleCfg { idleShard with slice_retries := 10 } sampleTs
        none .RETRY_SLICE).1
      = (attemptShardRetry sampleCfg
          { idleShard with slice_retries := 10 } sampleTs).1 := by
  constructor
  · have h := (slice_retry_budget sampleCfg idleShard sampleTs
        (some { idleShard with slice_start_time := some 0 })).1 (by decide)
    rw [h.1]
    have h2 := h.2 { idleShard with slice_start_time := some 0 } rfl (by decide)
    rw [h2]
    decide
  · exact ((slice_retry_budget sampleCfg
      { idleShard with slice_retries := 10 } sampleTs none).2 (by decide)).2.1

/-- Iterating always-failing shard attempts from a state with
`SHARD_MAX_ATTEMPTS = retries + 1 + k` produces `k` RETRY_SHARD
directives and then FAIL_TASK, leaving the shard FAILED and
inactive. -/
theorem runFailingShard_exhausts (cfg : Config) :
    ∀ k fuel (ss : ShardState) (ts : TransientShardState),
    cfg.SHARD_MAX_ATTEMPTS = ss.retries + 1 + k → k < fuel →
    (∀ w, ts.output_writer = some w → w.supports_shard_retry = true) →
    (runFailingShard cfg fuel ss ts).1
        = List.replicate k TaskDirective.RETRY_SHARD
            ++ [TaskDirective.FAIL_TASK] ∧
    (runFailingShard cfg fuel ss ts).2.result_status
        = some ResultStatus.FAILED ∧
    (runFailingShard cfg fuel ss ts).2.active = false := by
  intro k
  induction k with
  | zero =>
    intro fuel ss ts hmax hfuel hw
    obtain ⟨f, rfl⟩ : ∃ f, fuel = f + 1 := ⟨fuel - 1, by omega⟩
    have hle : cfg.SHARD_MAX_ATTEMPTS ≤ ss.retries + 1 := by omega
    have hA : attemptShardRetry cfg ss ts = (.FAIL_TASK, ss, ts) := by
      simp [attemptShardRetry, hle]
    simp [runFailingShard, hA, ShardState.setForFailure]
  | succ k ih =>
    intro fuel ss ts hmax hfuel hw
    obtain ⟨f, rfl⟩ : ∃ f, fuel = f + 1 := ⟨fuel - 1, by omega⟩
    have hlt : ¬ cfg.SHARD_MAX_ATTEMPTS ≤ ss.retries + 1 := by omega
    have hwa : ts.output_writer.any (fun w => !w.supports_shard_retry)
        = false := by
      cases how : ts.output_writer with
      | none => rfl
      | some w => simp [Option.any, hw w how]
    have hA : attemptShardRetry cfg ss ts
        = (.RETRY_SHARD, ss.resetForRetry,
           ts.resetForRetry
             (ts.output_writer.map
               (fun w => w.create ss.shard_number (ss.retries + 1 + 1)))) := by
      simp [attemptShardRetry, hlt, hwa]
    have hrec := ih f ss.resetForRetry
        (ts.resetForRetry
          (ts.output_writer.map
            (fun w => w.create ss.shard_number (ss.retries + 1 + 1))))
        (by simp [ShardState.resetForRetry]; omega) (by omega)
        (by
          intro w hwmem
          simp [TransientShardState.resetForRetry] at hwmem
          cases how : ts.output_writer with
          | none => rw [how] at hwmem; simp at hwmem
          | some w0 =>
            rw [how] at hwmem
            simp [Writer.create] at hwmem
            rw [← hwmem]
            simpa using hw w0 how)
    refine ⟨?_, ?_, ?_⟩ <;>
      simp [runFailingShard, hA, hrec.1, hrec.2.1, hrec.2.2,
            List.replicate_succ]

/-- Claim C4: `_attempt_shard_retry` yields FAIL_TASK exactly when
`retries + 1 >= SHARD_MAX_ATTEMPTS` or the output writer does not
support shard retry; otherwise it resets the shard for retry with a
fresh output-writer instance and yields RETRY_SHARD. On FAIL the shard
is marked FAILED/inactive by `_set_state` and no follow-up task is
scheduled; and a shard whose handler always fails reaches FAILED after
exactly `SHARD_MAX_ATTEMPTS` shard attempts. -/
theorem shard_retry_budget (cfg : Config) (ss : ShardState)
    (ts : TransientShardState) (store : Option ShardState) (fuel : Nat) :
    ((attemptShardRetry cfg ss ts).1 = .FAIL_TASK ↔
        cfg.SHARD_MAX_ATTEMPTS ≤ ss.retries + 1 ∨
          ∃ w, ts.output_writer = some w ∧ w.supports_shard_retry = false) ∧
    (¬(cfg.SHARD_MAX_ATTEMPTS ≤ ss.retries + 1 ∨
          ∃ w, ts.output_writer = some w ∧ w.supports_shard_retry = false) →
      attemptShardRetry cfg ss ts
          = (.RETRY_SHARD, ss.resetForRetry,
             ts.resetForRetry
               (ts.output_writer.map
                 (fun w => w.create ss.shard_number (ss.retries + 2))))) ∧
    ((attemptShardRetry cfg ss ts).1 = .FAIL_TASK →
      setState cfg ss ts store .RETRY_SHARD
          = (.FAIL_TASK, ss.setForFailure, ts, store)) ∧
    (∀ st : ShardState, st.active = false → ∀ fresh,
      saveState .FAIL_TASK st fresh = .noop ∨
      saveState .FAIL_TASK st fresh = .write st false) ∧
    (1 ≤ cfg.SHARD_MAX_ATTEMPTS → ss.retries = 0 →
      (∀ w, ts.output_writer = some w → w.supports_shard_retry = true) →
      cfg.SHARD_MAX_ATTEMPTS ≤ fuel →
      (runFailingShard cfg fuel ss ts).1
          = List.replicate (cfg.SHARD_MAX_ATTEMPTS - 1)
              TaskDirective.RETRY_SHARD ++ [TaskDirective.FAIL_TASK] ∧
      (runFailingShard cfg fuel ss ts).1.length = cfg.SHARD_MAX_ATTEMPTS ∧
      (runFailingShard cfg fuel ss ts).2.result_status
          = some ResultStatus.FAILED ∧
      (runFailingShard cfg fuel ss ts).2.active = false) := by
  have hAfail : cfg.SHARD_MAX_ATTEMPTS ≤ ss.retries + 1 ∨
      (∃ w, ts.output_writer = some w ∧ w.supports_shard_retry = false) →
      attemptShardRetry cfg ss ts = (.FAIL_TASK, ss, ts) := by
    intro h
    by_cases h1 : cfg.SHARD_MAX_ATTEMPTS ≤ ss.retries + 1
    · simp [attemptShardRetry, h1]
    · rcases h with h1x | ⟨w, how, hsup⟩
      · exact absurd h1x h1
      · simp [attemptShardRetry, h1, how, Option.any, hsup]
  have hAretry : ¬(cfg.SHARD_MAX_ATTEMPTS ≤ ss.retries + 1 ∨
      ∃ w, ts.output_writer = some w ∧ w.supports_shard_retry = false) →
      attemptShardRetry cfg ss ts
          = (.RETRY_SHARD, ss.resetForRetry,
             ts.resetForRetry
               (ts.output_writer.map
                 (fun w => w.create ss.shard_number (ss.retries + 2)))) := by
    intro h
    obtain ⟨h1, h2⟩ := not_or.mp h
    have hwa : ts.output_writer.any (fun w => !w.supports_shard_retry)
        = false := by
      cases how : ts.output_writer with
      | none => rfl
      | some w =>
        simp [Option.any]
        by_contra hc
        exact h2 ⟨w, how, by revert hc; cases w.supports_shard_retry <;> simp⟩
    simp [attemptShardRetry, h1, hwa]
  have hIff : (attemptShardRetry cfg ss ts).1 = .FAIL_TASK ↔
      cfg.SHARD_MAX_ATTEMPTS ≤ ss.retries + 1 ∨
        ∃ w, ts.output_writer = some w ∧ w.supports_shard_retry = false := by
    constructor
    · intro hfail
      by_contra hc
      rw [hAretry hc] at hfail
      simp at hfail
    · intro h
      rw [hAfail h]
  refine ⟨hIff, hAretry, ?_, ?_, ?_⟩
  · intro hfail
    have hA := hAfail (hIff.mp hfail)
    simp [setState, hA]
  · intro st hact fresh
    cases fresh with
    | none => left; rfl
    | some fs =>
      cases hfa : fs.active with
      | false => left; simp [saveState, hfa]
      | true => right; simp [saveState, hfa, hasNextTask, hact]
  · intro h1 h0 hw hfuel
    have hrun := runFailingShard_exhausts cfg (cfg.SHARD_MAX_ATTEMPTS - 1)
        fuel ss ts (by omega) (by omega) hw
    refine ⟨hrun.1, ?_, hrun.2.1, hrun.2.2⟩
    rw [hrun.1]
    simp
    omega

/-- Claim C4, concrete instance: with `SHARD_MAX_ATTEMPTS = 4` and a
retry-capable writer, an always-failing shard produces three
RETRY_SHARD directives and then FAIL_TASK (four attempts), ending
FAILED and inactive. -/
theorem shard_retry_budget_witness :
    (runFailingShard sampleCfg 4 idleShard sampleTs).1
        = [TaskDirective.RETRY_SHARD, TaskDirective.RETRY_SHARD,
           TaskDirective.RETRY_SHARD, TaskDirective.FAIL_TASK] ∧
    (runFailingShard sampleCfg 4 idleShard sampleTs).2.result_status
        = some ResultStatus.FAILED ∧
    (runFailingShard sampleCfg 4 idleShard sampleTs).2.active = false := by
  have h := (shard_retry_budget sampleCfg idleShard sampleTs none 4).2.2.2.2
      (by decide) (by decide)
      (by intro w hwmem; simp [sampleTs] at hwmem; rw [← hwmem]; decide)
      (by decide)
  exact ⟨by rw [h.1]; decide, h.2.2.1, h.2.2.2⟩


/-- Claim C3: a redelivered worker task (`acquired_once = true`) whose
output writer supports slice recovery dedicates the slice to recovery:
the payload writer is replaced by the `_recover` instance, the
directive is RECOVER_SLICE with no data processing, and the logical
slice counter advances by 2 (not 1) on both the shard state and the
payload; with no writer or no recovery support the directive stays
PROCEED_TASK and normal data processing happens. -/
theorem slice_recovery_spec (cfg : Config) (ss0 : ShardState)
    (ts : TransientShardState) (now : Int) (old : Bool) (reqId : Nat)
    (outcome : SliceOutcome)
    (hpre : preValidate (some ss0) ts = none)
    (hwait : leaseWaitCheck cfg ss0 now old = none)
    (hretry : ss0.acquired_once = true)
    (hmax : 1 < cfg.TASK_MAX_DATA_PROCESSING_ATTEMPTS)
    (hinput : ss0.input_finished = false) :
    (∀ w, ts.output_writer = some w → w.supports_slice_recovery = true →
      ∃ r, workerHandle cfg (some ss0) none ts now old reqId outcome
              = some r ∧
        r.rawDirective = .RECOVER_SLICE ∧ r.directive = .RECOVER_SLICE ∧
        r.processed = false ∧
        r.ts.output_writer
            = some (w.recover ss0.shard_number (ss0.retries + 1)) ∧
        r.ts.slice_id = ts.slice_id + 2 ∧
        ∃ s, r.ss = some s ∧ s.slice_id = ss0.slice_id + 2) ∧
    ((∀ w, ts.output_writer = some w → w.supports_slice_recovery = false) →
      ∃ r, workerHandle cfg (some ss0) none ts now old reqId outcome
              = some r ∧
        r.processed = true ∧
        (∀ b, outcome = .ok b → r.rawDirective = .PROCEED_TASK)) := by
  have hact : ss0.active = true := by
    cases h : ss0.active
    · simp [preValidate, h] at hpre
    · rfl
  have hm1 : ¬ cfg.TASK_MAX_DATA_PROCESSING_ATTEMPTS ≤ 1 := by omega
  have hlease : tryAcquireLease cfg (some ss0) ts now old (some ss0) reqId
      = (some .PROCEED_TASK, some (ss0.leased now reqId)) := by
    simp [tryAcquireLease, hpre, hwait, acquireTx, hact]
  have hfields : (ss0.leased now reqId).acquired_once = true ∧
      (ss0.leased now reqId).input_finished = false ∧
      (ss0.leased now reqId).shard_number = ss0.shard_number ∧
      (ss0.leased now reqId).retries = ss0.retries ∧
      (ss0.leased now reqId).slice_id = ss0.slice_id := by
    simp [ShardState.leased, hinput]
  constructor
  · intro w how hsup
    have hrec : attemptSliceRecovery (ss0.leased now reqId) ts
        = (.RECOVER_SLICE,
           { ts with output_writer := some (w.recover ss0.shard_number (ss0.retries + 1)) }) := by
      simp [attemptSliceRecovery, how, hsup, ShardState.leased]
    have hwh : workerHandle cfg (some ss0) none ts now old reqId outcome
        = some (workerReturn cfg (ss0.leased now reqId)
            { ts with output_writer := some (w.recover ss0.shard_number (ss0.retries + 1)) }
            (some (ss0.leased now reqId)) .RECOVER_SLICE false) := by
      simp [workerHandle, hlease, hretry, hm1, hfields.1, hfields.2.1, hrec]
    refine ⟨_, hwh, ?_, ?_, ?_, ?_, ?_, ?_⟩ <;>
      simp [workerReturn, setState, TransientShardState.advanceForNextSlice,
            ShardState.advanceForNextSlice, ShardState.leased]
  · intro hnosup
    have hrec2 : attemptSliceRecovery (ss0.leased now reqId) ts
        = (.PROCEED_TASK, ts) := by
      cases how : ts.output_writer with
      | none => simp [attemptSliceRecovery, how]
      | some w => simp [attemptSliceRecovery, how, hnosup w how]
    cases outcome with
    | ok b =>
      have hwh : workerHandle cfg (some ss0) none ts now old reqId (.ok b)
          = some (workerReturn cfg
              (if b then (ss0.leased now reqId).setInputFinished
               else ss0.leased now reqId)
              ts (some (ss0.leased now reqId)) .PROCEED_TASK true) := by
        simp [workerHandle, hlease, hretry, hm1, hfields.1, hfields.2.1, hrec2]
      refine ⟨_, hwh, by simp [workerReturn], ?_⟩
      intro b2 hb
      simp [workerReturn]
    | failJob =>
      have hwh : workerHandle cfg (some ss0) none ts now old reqId .failJob
          = some (workerReturn cfg (ss0.leased now reqId) ts
              (some (ss0.leased now reqId)) .FAIL_TASK true) := by
        simp [workerHandle, hlease, hretry, hm1, hfields.1, hfields.2.1, hrec2]
      exact ⟨_, hwh, by simp [workerReturn], by intro b hb; cases hb⟩
    | otherError =>
      have hwh : workerHandle cfg (some ss0) none ts now old reqId .otherError
          = some (workerReturn cfg (ss0.leased now reqId) ts
              (some (ss0.leased now reqId)) .RETRY_SLICE true) := by
        simp [workerHandle, hlease, hretry, hm1, hfields.1, hfields.2.1, hrec2]
      exact ⟨_, hwh, by simp [workerReturn], by intro b hb; cases hb⟩

/-- Claim C3, concrete instance: a redelivery (`acquired_once = true`)
with a recovery-capable writer yields RECOVER_SLICE, processes no data,
and advances the payload slice counter by 2. -/
theorem slice_recovery_spec_witness :
    ∃ r, workerHandle sampleCfg (some { idleShard with acquired_once := true })
        none sampleTs 5 false 9 (.ok false) = some r ∧
      r.rawDirective = .RECOVER_SLICE ∧ r.processed = false ∧
      r.ts.slice_id = sampleTs.slice_id + 2 := by
  obtain ⟨r, hr, h1, h2, h3, h4, h5, h6⟩ :=
    (slice_recovery_spec sampleCfg { idleShard with acquired_once := true }
        sampleTs 5 false 9 (.ok false) (by decide) (by decide) (by decide)
        (by decide) (by decide)).1 sampleWriter rfl (by decide)
  exact ⟨r, hr, h1, h3, h5⟩

/-- A write by `_try_acquire_lease` happens only on the PROCEED_TASK
path, and what is written is the observed state with the lease fields
set. -/
theorem tryAcquireLease_write (cfg : Config) (ss0 : ShardState)
    (ts : TransientShardState) (now : Int) (old : Bool)
    (fresh : Option ShardState) (reqId : Nat) (w : ShardState) :
    (tryAcquireLease cfg (some ss0) ts now old fresh reqId).2 = some w →
    (tryAcquireLease cfg (some ss0) ts now old fresh reqId).1
        = some .PROCEED_TASK ∧
    w = ss0.leased now reqId := by
  intro hw
  cases hpre : preValidate (some ss0) ts with
  | some d => simp [tryAcquireLease, hpre] at hw
  | none =>
    cases hwait : leaseWaitCheck cfg ss0 now old with
    | some d => simp [tryAcquireLease, hpre, hwait] at hw
    | none =>
      cases fresh with
      | none => simp [tryAcquireLease, hpre, hwait, acquireTx] at hw
      | some fs =>
        by_cases hc : fs.active = true ∧ fs.slice_id = ss0.slice_id ∧
            fs.slice_start_time = ss0.slice_start_time
        · simp [tryAcquireLease, hpre, hwait, acquireTx, hc] at hw ⊢
          exact hw.symm
        · simp [tryAcquireLease, hpre, hwait, acquireTx, hc] at hw

/-- With a pending ABORT command, no delivery ever enters the
data-processing loop. -/
theorem workerHandle_abort_no_processing (cfg : Config)
    (sstate : Option ShardState) (ts : TransientShardState) (now : Int)
    (old : Bool) (reqId : Nat) (outcome : SliceOutcome) :
    ∀ r, workerHandle cfg sstate (some .ABORT) ts now old reqId outcome
        = some r → r.processed = false := by
  intro r hr
  cases sstate with
  | none =>
    simp [workerHandle] at hr
    rw [← hr]
  | some ss0 =>
    rcases htac : tryAcquireLease cfg (some ss0) ts now old (some ss0) reqId
      with ⟨d, wr⟩
    cases d with
    | none => simp [workerHandle, htac] at hr
    | some d0 =>
      cases wr with
      | none =>
        simp [workerHandle, htac] at hr
        rw [← hr]
        simp [workerReturn]
      | some ssw =>
        simp [workerHandle, htac] at hr
        rw [← hr]
        simp [workerReturn]

/-- Claim C9, counterexample: a delivery that sees a pending ABORT
command but fails pre-lease validation (payload slice 5 against stored
slice 6, an active shard) resolves to DROP_TASK, not ABORT_SHARD, and
the shard state is left untouched (not ABORTED, still active). -/
theorem abort_shard_counterexample :
    ∃ r, workerHandle sampleCfg (some { idleShard with slice_id := 6 })
        (some .ABORT) { sampleTs with slice_id := 5 } 0 false 0 (.ok true)
          = some r ∧
      r.directive = .DROP_TASK ∧ ¬ r.directive = .ABORT_SHARD ∧
      ∃ s, r.ss = some s ∧ ¬ s.result_status = some ResultStatus.ABORTED ∧
        s.active = true := by
  refine ⟨_, rfl, ?_, ?_, ?_⟩
  · decide
  · decide
  · exact ⟨_, rfl, by decide, by decide⟩

/-- Claim C9 (amended): the control record is read before lease
acquisition but checked after it; a delivery that sees a pending ABORT
command never processes input, and when the lease is acquired
(validation and the CAS succeed) the delivery resolves to ABORT_SHARD,
setting `result_status = ABORTED`, `active = false`, and scheduling no
further task; deliveries that fail validation or the CAS resolve to
DROP_TASK / RETRY_TASK as usual. -/
theorem abort_shard_amended (cfg : Config) (ss0 : ShardState)
    (ts : TransientShardState) (now : Int) (old : Bool) (reqId : Nat)
    (outcome : SliceOutcome) :
    (∀ sstate r,
      workerHandle cfg sstate (some .ABORT) ts now old reqId outcome
          = some r → r.processed = false) ∧
    (preValidate (some ss0) ts = none →
     leaseWaitCheck cfg ss0 now old = none →
      ∃ r, workerHandle cfg (some ss0) (some .ABORT) ts now old reqId outcome
          = some r ∧
        r.rawDirective = .ABORT_SHARD ∧ r.directive = .ABORT_SHARD ∧
        (∃ s, r.ss = some s ∧ s.result_status = some ResultStatus.ABORTED ∧
          s.active = false) ∧
        r.save = .write (ss0.leased now reqId).setForAbort false) := by
  constructor
  · intro sstate r hr
    exact workerHandle_abort_no_processing cfg sstate ts now old reqId
      outcome r hr
  · intro hpre hwait
    have hact : ss0.active = true := by
      cases h : ss0.active
      · simp [preValidate, h] at hpre
      · rfl
    have hlease : tryAcquireLease cfg (some ss0) ts now old (some ss0) reqId
        = (some .PROCEED_TASK, some (ss0.leased now reqId)) := by
      simp [tryAcquireLease, hpre, hwait, acquireTx, hact]
    have hwh : workerHandle cfg (some ss0) (some .ABORT) ts now old reqId
        outcome
        = some (workerReturn cfg (ss0.leased now reqId) ts
            (some (ss0.leased now reqId)) .ABORT_SHARD false) := by
      simp [workerHandle, hlease]
    refine ⟨_, hwh, ?_, ?_,
      ⟨(ss0.leased now reqId).setForAbort, ?_, ?_, ?_⟩, ?_⟩ <;>
      simp [workerReturn, setState, saveState, hasNextTask,
            ShardState.setForAbort, ShardState.leased, hact]

/-- Claim C9 (amended), concrete instance: a clean delivery with a
pending abort acquires the lease, resolves to ABORT_SHARD, marks the
shard ABORTED and inactive, processes nothing, and schedules no
task. -/
theorem abort_shard_amended_witness :
    (∀ r, workerHandle sampleCfg (some idleShard) (some .ABORT) sampleTs
        3 false 4 (.ok true) = some r → r.processed = false) ∧
    ∃ r, workerHandle sampleCfg (some idleShard) (some .ABORT) sampleTs
        3 false 4 (.ok true) = some r ∧
      r.directive = .ABORT_SHARD ∧
      r.save = .write (idleShard.leased 3 4).setForAbort false := by
  have h := abort_shard_amended sampleCfg idleShard sampleTs 3 false 4
      (.ok true)
  constructor
  · intro r hr
    exact h.1 (some idleShard) r hr
  · obtain ⟨r, hr, h1, h2, h3, h4⟩ := h.2 (by decide) (by decide)
    exact ⟨r, hr, h2, h4⟩

/-- Any delivery that enters the data-processing loop ends in
`__return` with the directive determined by the slice outcome:
PROCEED_TASK on normal completion, FAIL_TASK on `FailJobError`,
RETRY_SLICE on any other exception. -/
theorem workerHandle_processed_cases (cfg : Config) (ss0 : ShardState)
    (ctrl : Option Command) (ts : TransientShardState) (now : Int)
    (old : Bool) (reqId : Nat) (outcome : SliceOutcome) :
    ∀ r, workerHandle cfg (some ss0) ctrl ts now old reqId outcome = some r →
      r.processed = true →
      ∃ ss1 ts1, r = workerReturn cfg ss1 ts1 (some (ss0.leased now reqId))
          (match outcome with
            | .ok _ => .PROCEED_TASK
            | .failJob => .FAIL_TASK
            | .otherError => .RETRY_SLICE) true := by
  intro r hr hproc
  rcases htac : tryAcquireLease cfg (some ss0) ts now old (some ss0) reqId
    with ⟨d, wr⟩
  cases d with
  | none => simp [workerHandle, htac] at hr
  | some d0 =>
    cases wr with
    | none =>
      simp [workerHandle, htac] at hr
      rw [← hr] at hproc
      simp [workerReturn] at hproc
    | some ssw =>
      obtain ⟨hd, hws⟩ := tryAcquireLease_write cfg ss0 ts now old (some ss0)
        reqId ssw (by rw [htac])
      subst hws
      cases outcome with
      | ok b =>
        simp [workerHandle, htac] at hr
        split_ifs at hr <;> simp only [Option.some.injEq] at hr <;>
          subst hr <;>
          first
            | exact ⟨_, _, rfl⟩
            | simp [workerReturn] at hproc
      | failJob =>
        simp [workerHandle, htac] at hr
        split_ifs at hr <;> simp only [Option.some.injEq] at hr <;>
          subst hr <;>
          first
            | exact ⟨_, _, rfl⟩
            | simp [workerReturn] at hproc
      | otherError =>
        simp [workerHandle, htac] at hr
        split_ifs at hr <;> simp only [Option.some.injEq] at hr <;>
          subst hr <;>
          first
            | exact ⟨_, _, rfl⟩
            | simp [workerReturn] at hproc

/-- Claim C8: a `FailJobError` from slice processing always routes the
directive to FAIL_TASK — independent of the slice and shard retry
budgets (the configuration is arbitrary here), marking the shard FAILED
and inactive — while any other exception routes to RETRY_SLICE; and a
`FailJobError` raised while scheduling shards in the kickoff handler
marks the whole job FAILED, issues an abort command, and finalizes it
instead of leaving the job running. -/
theorem failjob_routing (cfg : Config) (ss0 : ShardState)
    (ctrl : Option Command) (ts : TransientShardState) (now : Int)
    (old : Bool) (reqId : Nat) :
    (∀ r, workerHandle cfg (some ss0) ctrl ts now old reqId .failJob
        = some r → r.processed = true →
      r.rawDirective = .FAIL_TASK ∧ r.directive = .FAIL_TASK ∧
      ∃ s, r.ss = some s ∧ s.result_status = some ResultStatus.FAILED ∧
        s.active = false) ∧
    (∀ r, workerHandle cfg (some ss0) ctrl ts now old reqId .otherError
        = some r → r.processed = true →
      r.rawDirective = .RETRY_SLICE) ∧
    (∀ st : MapreduceState, st.active = true →
      kickoffHandle (some st) false .failJob
        = { state := some { st with active := false,
                                    result_status := some ResultStatus.FAILED },
            abortIssued := true, finalized := true, jobRunning := false,
            raised := false }) := by
  refine ⟨?_, ?_, ?_⟩
  · intro r hr hproc
    obtain ⟨ss1, ts1, rfl⟩ := workerHandle_processed_cases cfg ss0 ctrl ts
      now old reqId .failJob r hr hproc
    refine ⟨?_, ?_, ⟨ss1.setForFailure, ?_, ?_, ?_⟩⟩ <;>
      simp [workerReturn, setState, ShardState.setForFailure]
  · intro r hr hproc
    obtain ⟨ss1, ts1, rfl⟩ := workerHandle_processed_cases cfg ss0 ctrl ts
      now old reqId .otherError r hr hproc
    simp [workerReturn]
  · intro st hact
    simp [kickoffHandle, hact]

/-- Claim C8, concrete instances: a `FailJobError` on a first clean
delivery fails the shard outright even with retry budget remaining, and
a `FailJobError` during shard scheduling fails and finalizes the whole
job. -/
theorem failjob_routing_witness :
    (∃ r, workerHandle sampleCfg (some idleShard) none sampleTs 0 false 0
        .failJob = some r ∧ r.directive = .FAIL_TASK) ∧
    kickoffHandle (some runningJob) false .failJob
      = { state := some { runningJob with active := false,
                                          result_status := some ResultStatus.FAILED },
          abortIssued := true, finalized := true, jobRunning := false,
          raised := false } := by
  constructor
  · refine ⟨_, rfl, ?_⟩
    exact ((failjob_routing sampleCfg idleShard none sampleTs 0 false 0).1
      _ rfl (by decide)).2.1
  · exact (failjob_routing sampleCfg idleShard none sampleTs 0 false 0).2.2
      runningJob (by decide)

/-- The validation prefix never produces PROCEED_TASK. -/
theorem preValidate_no_proceed (sstate : Option ShardState)
    (ts : TransientShardState) :
    preValidate sstate ts ≠ some TaskDirective.PROCEED_TASK := by
  cases sstate with
  | none => simp [preValidate]
  | some ss =>
    simp only [preValidate]
    split_ifs <;> simp

/-- The held-lease checks never produce PROCEED_TASK. -/
theorem leaseWaitCheck_no_proceed (cfg : Config) (ss : ShardState)
    (now : Int) (old : Bool) :
    leaseWaitCheck cfg ss now old ≠ some TaskDirective.PROCEED_TASK := by
  cases hst : ss.slice_start_time with
  | none => simp [leaseWaitCheck, hst]
  | some t =>
    simp only [leaseWaitCheck, hst]
    split_ifs <;> simp

/-- Total case analysis of `_try_acquire_lease` on an existing shard
state: either every check passed, the re-read state matches, and the
lease is written (PROCEED_TASK), or the directive is not PROCEED_TASK
and nothing is written. -/
theorem tryAcquireLease_total (cfg : Config) (ss : ShardState)
    (ts : TransientShardState) (now : Int) (old : Bool)
    (fresh : Option ShardState) (reqId : Nat) :
    (preValidate (some ss) ts = none ∧ leaseWaitCheck cfg ss now old = none ∧
     (∃ fs, fresh = some fs ∧ fs.active = true ∧ fs.slice_id = ss.slice_id ∧
        fs.slice_start_time = ss.slice_start_time) ∧
     tryAcquireLease cfg (some ss) ts now old fresh reqId
        = (some .PROCEED_TASK, some (ss.leased now reqId))) ∨
    ((tryAcquireLease cfg (some ss) ts now old fresh reqId).1
        ≠ some TaskDirective.PROCEED_TASK ∧
     (tryAcquireLease cfg (some ss) ts now old fresh reqId).2 = none) := by
  cases hpre : preValidate (some ss) ts with
  | some d =>
    right
    constructor
    · simp [tryAcquireLease, hpre]
      intro hc
      exact absurd (hc ▸ hpre) (preValidate_no_proceed (some ss) ts)
    · simp [tryAcquireLease, hpre]
  | none =>
    cases hwait : leaseWaitCheck cfg ss now old with
    | some d =>
      right
      constructor
      · simp [tryAcquireLease, hpre, hwait]
        intro hc
        exact absurd (hc ▸ hwait) (leaseWaitCheck_no_proceed cfg ss now old)
      · simp [tryAcquireLease, hpre, hwait]
    | none =>
      cases fresh with
      | none =>
        right
        simp [tryAcquireLease, hpre, hwait, acquireTx]
      | some fs =>
        by_cases hc : fs.active = true ∧ fs.slice_id = ss.slice_id ∧
            fs.slice_start_time = ss.slice_start_time
        · left
          exact ⟨rfl, rfl, ⟨fs, rfl, hc.1, hc.2.1, hc.2.2⟩,
            by simp [tryAcquireLease, hpre, hwait, acquireTx, hc]⟩

        · right
          simp [tryAcquireLease, hpre, hwait, acquireTx, hc]

/-- The directive a delivery observes is the one its
`_try_acquire_lease` computes. -/
theorem leaseStep_fst (cfg : Config) (ts : TransientShardState)
    (cur : ShardState) (d : Delivery) :
    (leaseStep cfg ts cur d).1
      = (tryAcquireLease cfg (some d.observed) ts d.now d.oldRequestEnded
          (some cur) d.reqId).1 := by
  unfold leaseStep
  rcases h : tryAcquireLease cfg (some d.observed) ts d.now d.oldRequestEnded
      (some cur) d.reqId with ⟨dir, wr⟩
  cases wr <;> simp

/-- A delivery whose transaction writes nothing leaves the store
unchanged. -/
theorem leaseStep_no_write (cfg : Config) (ts : TransientShardState)
    (cur : ShardState) (d : Delivery)
    (h : (tryAcquireLease cfg (some d.observed) ts d.now d.oldRequestEnded
        (some cur) d.reqId).2 = none) :
    (leaseStep cfg ts cur d).2 = cur := by
  unfold leaseStep
  rcases hres : tryAcquireLease cfg (some d.observed) ts d.now
      d.oldRequestEnded (some cur) d.reqId with ⟨dir, wr⟩
  rw [hres] at h
  simp at h
  subst h
  simp

/-- A delivery that acquires the lease installs its own written state
as the store content. -/
theorem leaseStep_write (cfg : Config) (ts : TransientShardState)
    (cur : ShardState) (d : Delivery)
    (h : tryAcquireLease cfg (some d.observed) ts d.now d.oldRequestEnded
        (some cur) d.reqId
        = (some .PROCEED_TASK, some (d.observed.leased d.now d.reqId))) :
    leaseStep cfg ts cur d
      = (some .PROCEED_TASK, d.observed.leased d.now d.reqId) := by
  unfold leaseStep
  rw [h]

/-- While the store records a lease start `t` and every remaining
delivery clock is within `LEASE_DURATION_SEC` of `t`, no delivery
acquires the lease and the store never changes. -/
theorem runDeliveries_no_proceed (cfg : Config) (ts : TransientShardState) :
    ∀ (ds : List Delivery) (cur : ShardState) (t : Int),
    cur.slice_start_time = some t →
    (∀ d, d ∈ ds → d.now - t < cfg.LEASE_DURATION_SEC) →
    (runDeliveries cfg ts cur ds).1.count (some TaskDirective.PROCEED_TASK)
        = 0 ∧
    (runDeliveries cfg ts cur ds).2 = cur := by
  intro ds
  induction ds with
  | nil =>
    intro cur t hcur hwin
    simp [runDeliveries]
  | cons d ds ih =>
    intro cur t hcur hwin
    have hstep : (leaseStep cfg ts cur d).1 ≠ some TaskDirective.PROCEED_TASK ∧
        (leaseStep cfg ts cur d).2 = cur := by
      rcases tryAcquireLease_total cfg d.observed ts d.now d.oldRequestEnded
          (some cur) d.reqId with
        ⟨hpre, hwait, ⟨fs, hfs, hfa, hfsl, hfst⟩, heq⟩ | ⟨hnp, hw⟩
      · exfalso
        obtain rfl : cur = fs := by
          injection hfs
        have hobs : d.observed.slice_start_time = some t := by
          rw [← hfst, hcur]
        have hd := hwin d (List.mem_cons_self d ds)
        have h0 : 0 < cfg.LEASE_DURATION_SEC - (d.now - t) := by omega
        simp [leaseWaitCheck, hobs, waitTime, hd, h0] at hwait
      · exact ⟨by rw [leaseStep_fst]; exact hnp, leaseStep_no_write cfg ts cur d hw⟩
    have hrest := ih cur t hcur (fun e he => hwin e (List.mem_cons_of_mem d he))
    simp only [runDeliveries, hstep.2]
    constructor
    · simp [List.count_cons, hrest.1, hstep.1]
    · exact hrest.2

/-- Among any sequence of duplicate deliveries of the same
(shard, slice, retries) task whose clocks all lie within
`LEASE_DURATION_SEC` of one another, at most one acquires the lease. -/
theorem runDeliveries_exclusive (cfg : Config) (ts : TransientShardState) :
    ∀ (ds : List Delivery) (cur : ShardState),
    (∀ d, d ∈ ds → ∀ e, e ∈ ds → e.now - d.now < cfg.LEASE_DURATION_SEC) →
    (runDeliveries cfg ts cur ds).1.count (some TaskDirective.PROCEED_TASK)
        ≤ 1 := by
  intro ds
  induction ds with
  | nil =>
    intro cur hwin
    simp [runDeliveries]
  | cons d ds ih =>
    intro cur hwin
    rcases tryAcquireLease_total cfg d.observed ts d.now d.oldRequestEnded
        (some cur) d.reqId with
      ⟨hpre, hwait, ⟨fs, hfs, hfa, hfsl, hfst⟩, heq⟩ | ⟨hnp, hw⟩
    · -- this delivery acquires; nobody after it can
      have hstep := leaseStep_write cfg ts cur d heq
      have hlease_start : (d.observed.leased d.now d.reqId).slice_start_time
          = some d.now := by
        simp [ShardState.leased]
      have hzero := runDeliveries_no_proceed cfg ts ds
          (d.observed.leased d.now d.reqId) d.now hlease_start
          (fun e he => hwin d (List.mem_cons_self d ds) e
            (List.mem_cons_of_mem d he))
      simp only [runDeliveries, hstep]
      simp [List.count_cons, hzero.1]
    · have hstep1 : (leaseStep cfg ts cur d).1
          ≠ some TaskDirective.PROCEED_TASK := by
        rw [leaseStep_fst]; exact hnp
      have hstep2 := leaseStep_no_write cfg ts cur d hw
      have hrest := ih cur (fun a ha b hb =>
        hwin a (List.mem_cons_of_mem d ha) b (List.mem_cons_of_mem d hb))
      simp only [runDeliveries, hstep2]
      simp [List.count_cons, hstep1]
      omega

/-- Claim C1: inside the acquisition transaction, PROCEED_TASK is
returned exactly when the freshly re-read state exists, is active, and
matches the observed `slice_id` and `slice_start_time` (with the
validation and held-lease checks passed); exactly then the observed
state is written with `slice_start_time := now`,
`slice_request_id := reqId`, `acquired_once := true`; on a divergent
re-read the result is RETRY_TASK with no write; and among any sequence
of concurrent duplicate deliveries of the same (shard, slice, retries)
task — deliveries whose clocks lie within `LEASE_DURATION_SEC` of each
other — at most one observes PROCEED_TASK. -/
theorem lease_cas_and_exclusivity :
    (∀ (cfg : Config) (ss : ShardState) (ts : TransientShardState)
       (now : Int) (old : Bool) (fresh : Option ShardState) (reqId : Nat),
      ((tryAcquireLease cfg (some ss) ts now old fresh reqId).1
          = some TaskDirective.PROCEED_TASK ↔
        preValidate (some ss) ts = none ∧
        leaseWaitCheck cfg ss now old = none ∧
        ∃ fs, fresh = some fs ∧ fs.active = true ∧
          fs.slice_id = ss.slice_id ∧
          fs.slice_start_time = ss.slice_start_time) ∧
      ((tryAcquireLease cfg (some ss) ts now old fresh reqId).1
          = some TaskDirective.PROCEED_TASK →
        (tryAcquireLease cfg (some ss) ts now old fresh reqId).2
          = some (ss.leased now reqId)) ∧
      (¬ (tryAcquireLease cfg (some ss) ts now old fresh reqId).1
          = some TaskDirective.PROCEED_TASK →
        (tryAcquireLease cfg (some ss) ts now old fresh reqId).2 = none) ∧
      (preValidate (some ss) ts = none →
       leaseWaitCheck cfg ss now old = none →
        ∀ fs, fresh = some fs →
        ¬(fs.active = true ∧ fs.slice_id = ss.slice_id ∧
            fs.slice_start_time = ss.slice_start_time) →
        tryAcquireLease cfg (some ss) ts now old fresh reqId
          = (some TaskDirective.RETRY_TASK, none))) ∧
    (∀ (cfg : Config) (ts : TransientShardState) (cur : ShardState)
       (ds : List Delivery),
      (∀ d, d ∈ ds → ∀ e, e ∈ ds →
        e.now - d.now < cfg.LEASE_DURATION_SEC) →
      (runDeliveries cfg ts cur ds).1.count
          (some TaskDirective.PROCEED_TASK) ≤ 1) := by
  constructor
  · intro cfg ss ts now old fresh reqId
    rcases tryAcquireLease_total cfg ss ts now old fresh reqId with
      ⟨hpre, hwait, ⟨fs, hfs, hfa, hfsl, hfst⟩, heq⟩ | ⟨hnp, hw⟩
    · refine ⟨⟨fun _ => ⟨hpre, hwait, fs, hfs, hfa, hfsl, hfst⟩, fun _ => ?_⟩,
        fun _ => ?_, fun hn => absurd ?_ hn, ?_⟩
      · rw [heq]
      · rw [heq]
      · rw [heq]
      · intro hpre2 hwait2 fs2 hfs2 hnc
        exfalso
        rw [hfs2] at hfs
        have : fs2 = fs := by injection hfs
        subst this
        exact hnc ⟨hfa, hfsl, hfst⟩
    · refine ⟨⟨fun h => absurd h hnp, ?_⟩, fun h => absurd h hnp,
        fun _ => hw, ?_⟩
      · rintro ⟨hpre, hwait, fs, rfl, hfa, hfsl, hfst⟩
        exfalso
        apply hnp
        simp [tryAcquireLease, hpre, hwait, acquireTx, hfa, hfsl, hfst]
      · intro hpre hwait fs hfs hnc
        subst hfs
        simp [tryAcquireLease, hpre, hwait, acquireTx, hnc]
  · intro cfg ts cur ds h
    exact runDeliveries_exclusive cfg ts ds cur h

/-- Claim C1, concrete instances: a clean acquisition proceeds and
writes the leased state, and of two overlapping duplicate deliveries at
most one proceeds. -/
theorem lease_cas_and_exclusivity_witness :
    tryAcquireLease sampleCfg (some idleShard) sampleTs 2 false
        (some idleShard) 7
      = (some TaskDirective.PROCEED_TASK, some (idleShard.leased 2 7)) ∧
    (runDeliveries sampleCfg sampleTs idleShard
        [{ observed := idleShard, now := 0, reqId := 1,
           oldRequestEnded := false },
         { observed := idleShard, now := 3, reqId := 2,
           oldRequestEnded := false }]).1.count
        (some TaskDirective.PROCEED_TASK) ≤ 1 := by
  constructor
  · have h := lease_cas_and_exclusivity.1 sampleCfg idleShard sampleTs 2
        false (some idleShard) 7
    have h1 : (tryAcquireLease sampleCfg (some idleShard) sampleTs 2 false
        (some idleShard) 7).1 = some TaskDirective.PROCEED_TASK :=
      h.1.mpr ⟨by decide, by decide, idleShard, rfl, by decide, rfl, rfl⟩
    have h2 := h.2.1 h1
    exact Prod.ext h1 h2
  · exact lease_cas_and_exclusivity.2 sampleCfg sampleTs idleShard _
      (by decide)
